import Mathlib

/-!
Verification of the wkeeper stock-ledger engine.

The definitions below are a shallow embedding of the Express route handlers
of the warehouse tracker (file prisma/seed.ts, server document): product and
tool CRUD, stock movements (transactions with line items), the bulk endpoints,
line-item edit and delete, and the tool-assignment ledger.  Persistence is a
record of lists; a prisma transaction block is a function returning
Except Err DB, and an endpoint wraps it so that an error leaves the database
unchanged (rollback).  Machine numbers are Int (quantities are checked against
the bounds 0 and 65535 explicitly, as the handlers do).  The update of a row
located by its unique primary key is modelled as an update of the first list
element with that id.
-/

namespace WKeeper

/-- Movement type: the source uses the strings in and out, validated with
the check type must be in or out; an inductive mirrors the two valid values. -/
inductive MType where
  | tin
  | tout
deriving Repr, DecidableEq

/-- Product row: id, display name, normalized name used for duplicate
detection, optional sku, and the cached quantity. -/
structure Product where
  id : Nat
  name : String
  nameNormalized : String
  sku : Option String
  quantity : Int
deriving Repr, DecidableEq

/-- Movement header row (table transaction): type, optional counterparty ids
and the denormalized name snapshots taken at creation time. -/
structure Txn where
  id : Nat
  mtype : MType
  supplierId : Option Nat
  supplierName : Option String
  destinationId : Option Nat
  destinationName : Option String
  workerId : Option Nat
deriving Repr, DecidableEq

/-- Movement line item row (table TransactionItem): the product reference is
nullable (on delete set null), the product name is snapshotted, and the delta
carries its sign (negative for out movements). -/
structure TxnItem where
  id : Nat
  transactionId : Nat
  productId : Option Nat
  productName : String
  delta : Int
deriving Repr, DecidableEq

/-- Tool row with the total and the currently available quantity. -/
structure Tool where
  id : Nat
  name : String
  totalQuantity : Int
  availableQuantity : Int
  deleted : Bool
deriving Repr, DecidableEq

/-- Tool assignment row; returned true models a non-null returnedAt. -/
structure ToolAssignment where
  id : Nat
  toolId : Nat
  workerId : Nat
  quantity : Int
  returned : Bool
deriving Repr, DecidableEq

/-- Supplier row (only the fields the ledger reads). -/
structure Supplier where
  id : Nat
  name : String
deriving Repr, DecidableEq

/-- Location (destination) row. -/
structure Location where
  id : Nat
  name : String
deriving Repr, DecidableEq

/-- Worker row. -/
structure Worker where
  id : Nat
  name : String
deriving Repr, DecidableEq

/-- The relational store: one list per table plus the auto-increment counters
for the rows the ledger creates. -/
structure DB where
  products : List Product
  txns : List Txn
  items : List TxnItem
  tools : List Tool
  assignments : List ToolAssignment
  suppliers : List Supplier
  locations : List Location
  workers : List Worker
  nextProductId : Nat
  nextTxnId : Nat
  nextItemId : Nat
  nextAssignId : Nat
deriving Repr, DecidableEq

/-- Error kinds returned by the handlers (each corresponds to one error
string or to a prisma failure mapped to a 500 response).  recordNotFound
models a prisma write that throws because a row or foreign key is missing. -/
inductive Err where
  | nameRequired
  | invalidQuantity
  | quantityTooLarge
  | duplicateName
  | invalidDelta
  | invalidProductId
  | itemsRequired
  | productNotFound (pid : Int)
  | supplierNotFound
  | destinationNotFound
  | workerNotFound
  | notEnoughStock (pid : Int)
  | exceedsMaxStock (pid : Int)
  | recordNotFound
  | itemNotFound
  | wrongTransaction
  | transactionNotFound
  | toolNotFound
  | insufficientToolAvailability
  | noOutstandingAssignment
  | returnExceedsAssigned
  | invalidTotal
  | cannotReduceBelowIssued
deriving Repr, DecidableEq

/-- findUnique on the product table by a raw (request supplied) id. -/
def findProduct (db : DB) (pid : Int) : Option Product :=
  db.products.find? (fun p => (p.id : Int) == pid)

/-- findUnique on the supplier table. -/
def findSupplier (db : DB) (sid : Nat) : Option Supplier :=
  db.suppliers.find? (fun s => s.id == sid)

/-- findUnique on the location table. -/
def findLocation (db : DB) (did : Nat) : Option Location :=
  db.locations.find? (fun d => d.id == did)

/-- findUnique on the worker table. -/
def findWorker (db : DB) (wid : Nat) : Option Worker :=
  db.workers.find? (fun w => w.id == wid)

/-- findUnique on the tool table. -/
def findTool (db : DB) (tid : Nat) : Option Tool :=
  db.tools.find? (fun t => t.id == tid)

/-- The joined product of a line item (prisma include product): none when the
productId is null or the referenced row is gone. -/
def itemProduct (db : DB) (it : TxnItem) : Option Product :=
  match it.productId with
  | none => none
  | some pid => db.products.find? (fun p => p.id == pid)

/-- Model of the JavaScript String trim: leading and trailing whitespace
removed (written over the character list so that proofs can evaluate it). -/
def trimStr (s : String) : String :=
  ⟨((s.data.dropWhile Char.isWhitespace).reverse.dropWhile Char.isWhitespace).reverse⟩

/-- Model of the JavaScript toLowerCase used for the normalized name. -/
def lowerStr (s : String) : String :=
  ⟨s.data.map Char.toLower⟩

/-- Rollback semantics of a prisma transaction block: an error restores the
database as it was before the call and surfaces the single error. -/
def runTx (db : DB) (r : Except Err DB) : DB × Option Err :=
  match r with
  | .ok db1 => (db1, none)
  | .error e => (db, some e)

/-- Update of the first tool with the given id, adding d to its available
quantity (prisma update with an atomic increment or decrement located by the
unique primary key). -/
def incToolAvail : List Tool → Nat → Int → List Tool
  | [], _, _ => []
  | t :: ts, tid, d =>
    if t.id = tid then { t with availableQuantity := t.availableQuantity + d } :: ts
    else t :: incToolAvail ts tid d

/-- Update of the first tool with the given id after a total-quantity edit:
name trimmed, total set, available recomputed so the issued count stays. -/
def setToolTotal : List Tool → Nat → String → Int → Int → List Tool
  | [], _, _, _, _ => []
  | t :: ts, tid, nm, newTotal, issued =>
    if t.id = tid then
      { t with name := nm, totalQuantity := newTotal, availableQuantity := newTotal - issued } :: ts
    else t :: setToolTotal ts tid nm newTotal issued

/-- Update of the first assignment with the given id, marking it returned. -/
def markReturned : List ToolAssignment → Nat → List ToolAssignment
  | [], _ => []
  | a :: as_, aid =>
    if a.id = aid then { a with returned := true } :: as_
    else a :: markReturned as_ aid

/-- Update of the first assignment with the given id, decrementing its
quantity by the returned amount. -/
def decAssignQty : List ToolAssignment → Nat → Int → List ToolAssignment
  | [], _, _ => []
  | a :: as_, aid, q =>
    if a.id = aid then { a with quantity := a.quantity - q } :: as_
    else a :: decAssignQty as_ aid q

/-- POST /api/workers/:workerId/assignTool/:toolId.  Looks up the worker and
the tool, rejects a quantity below 1 or above the available quantity, and
otherwise creates the assignment row and decrements the availability in one
prisma transaction. -/
def assignTool (db : DB) (workerId toolId : Nat) (quantity : Int) : DB × Option Err :=
  match findWorker db workerId with
  | none => (db, some .workerNotFound)
  | some _ =>
    match findTool db toolId with
    | none => (db, some .toolNotFound)
    | some tool =>
      if quantity < 1 then (db, some .invalidQuantity)
      else if tool.availableQuantity < quantity then (db, some .insufficientToolAvailability)
      else
        ({ db with
            assignments := db.assignments ++
              [{ id := db.nextAssignId, toolId := toolId, workerId := workerId,
                 quantity := quantity, returned := false }],
            tools := incToolAvail db.tools toolId (-quantity),
            nextAssignId := db.nextAssignId + 1 }, none)

/-- The quantity a return request resolves to: a missing or zero body value
(zero is falsy in the source) defaults to the full outstanding quantity of
the assignment. -/
def resolveReturnQty (returnQuantity : Option Int) (a : ToolAssignment) : Int :=
  match returnQuantity with
  | some q => if q ≠ 0 then q else a.quantity
  | none => a.quantity

/-- POST /api/workers/:workerId/unassignTool/:toolId.  The resolved return
quantity must be at least 1 and no more than the outstanding quantity.  A
full return marks the assignment returned, a partial return decrements it,
both increment the tool availability; a value above the outstanding quantity
is rejected. -/
def returnTool (db : DB) (workerId toolId : Nat) (returnQuantity : Option Int) : DB × Option Err :=
  match findWorker db workerId with
  | none => (db, some .workerNotFound)
  | some _ =>
    match findTool db toolId with
    | none => (db, some .toolNotFound)
    | some _ =>
      match db.assignments.find? (fun a => a.workerId == workerId && a.toolId == toolId && !a.returned) with
      | none => (db, some .noOutstandingAssignment)
      | some a =>
        if resolveReturnQty returnQuantity a < 1 then (db, some .invalidQuantity)
        else if a.quantity < resolveReturnQty returnQuantity a then (db, some .returnExceedsAssigned)
        else if resolveReturnQty returnQuantity a = a.quantity then
          ({ db with assignments := markReturned db.assignments a.id,
                     tools := incToolAvail db.tools toolId (resolveReturnQty returnQuantity a) }, none)
        else
          ({ db with assignments := decAssignQty db.assignments a.id (resolveReturnQty returnQuantity a),
                     tools := incToolAvail db.tools toolId (resolveReturnQty returnQuantity a) }, none)

/-- PATCH /api/tools/:id.  Requires a non-empty name; when a total quantity is
supplied it must be at least 1, the tool must exist, and the new total may not
drop below the issued count; the available quantity is recomputed to preserve
the issued count.  Without a total the update touches only the name and a
missing row makes the prisma update throw. -/
def updateTool (db : DB) (id : Nat) (name : String) (totalQuantity : Option Int) : DB × Option Err :=
  if trimStr name = "" then (db, some .nameRequired)
  else
    match totalQuantity with
    | none =>
      match findTool db id with
      | none => (db, some .recordNotFound)
      | some _ =>
        ({ db with tools := db.tools.map (fun t => if t.id = id then { t with name := trimStr name } else t) }, none)
    | some newTotal =>
      if newTotal < 1 then (db, some .invalidTotal)
      else
        match findTool db id with
        | none => (db, some .toolNotFound)
        | some cur =>
          if newTotal < cur.totalQuantity - cur.availableQuantity then
            (db, some .cannotReduceBelowIssued)
          else
            ({ db with tools := setToolTotal db.tools id (trimStr name) newTotal
                         (cur.totalQuantity - cur.availableQuantity) }, none)

/-- Signed delta of a line item: the caller supplies a positive magnitude and
the sign is derived from the movement type (out is negative). -/
def signedDelta (t : MType) (d : Int) : Int :=
  if t = .tout then -(d.natAbs : Int) else (d.natAbs : Int)

/-- One raw item of a movement request, as parsed with Number. -/
structure RawItem where
  productId : Int
  delta : Int
deriving Repr, DecidableEq

/-- Per-item validation loop of the bulk endpoints: each productId must be a
positive integer and each delta a positive integer; the first offending item
decides the error. -/
def validateItems : List RawItem → Option Err
  | [] => none
  | it :: rest =>
    if it.productId ≤ 0 then some .invalidProductId
    else if it.delta ≤ 0 then some .invalidDelta
    else validateItems rest

/-- Scan keeping each value only at its first occurrence; the first argument
collects the values already seen. -/
def dedupFirstAux : List Int → List Int → List Int
  | _, [] => []
  | seen, x :: xs =>
    if x ∈ seen then dedupFirstAux seen xs else x :: dedupFirstAux (x :: seen) xs

/-- First-occurrence deduplication, as Array.from(new Set(...)) produces. -/
def dedupFirst (l : List Int) : List Int :=
  dedupFirstAux [] l

/-- Insertion into a weakly ascending list. -/
def insertAsc (x : Int) : List Int → List Int
  | [] => [x]
  | y :: ys => if x ≤ y then x :: y :: ys else y :: insertAsc x ys

/-- Ascending sort; Object.keys enumerates the numeric product keys of the
per-product delta map in ascending order. -/
def sortInts (l : List Int) : List Int :=
  l.foldr insertAsc []

/-- Movement request for the bulk endpoints (POST /api/transactions and
POST /api/transactions/bulk-adjust). -/
structure MovReq where
  mtype : MType
  items : List RawItem
  supplierId : Option Nat
  destinationId : Option Nat
  workerId : Option Nat
deriving Repr, DecidableEq

/-- The distinct product ids of a request, in first-occurrence order. -/
def movPids (req : MovReq) : List Int :=
  dedupFirst (req.items.map (fun it => it.productId))

/-- Net signed delta of one product across all items of a request: the
per-product collapsing of the deltasPerProduct map. -/
def netDelta (t : MType) (items : List RawItem) (pid : Int) : Int :=
  items.foldl (fun acc it => if it.productId = pid then acc + signedDelta t it.delta else acc) 0

/-- The per-product net deltas in the order the increment loop visits them. -/
def netList (req : MovReq) : List (Int × Int) :=
  (sortInts (movPids req)).map (fun pid => (pid, netDelta req.mtype req.items pid))

/-- The existence loop over the requested product ids: the first id that does
not resolve to a product row is the error. -/
def firstMissingProduct (db : DB) : List Int → Option Int
  | [] => none
  | pid :: rest =>
    if (findProduct db pid).isNone then some pid else firstMissingProduct db rest

/-- The optional counterparty lookups, in source order: supplier, then
destination, then worker; the first missing one decides the error. -/
def checkCounterparties (db : DB) (sup dest work : Option Nat) : Option Err :=
  if sup.any (fun sid => (findSupplier db sid).isNone) then some .supplierNotFound
  else if dest.any (fun did => (findLocation db did).isNone) then some .destinationNotFound
  else if work.any (fun wid => (findWorker db wid).isNone) then some .workerNotFound
  else none

/-- The pre-check loop of POST /api/transactions: per product, the quantity
read at the start of the unit of work plus the net delta must stay within
the bounds 0 and 65535. -/
def firstBoundsViolation (db : DB) (t : MType) (items : List RawItem) : List Int → Option Err
  | [] => none
  | pid :: rest =>
    match findProduct db pid with
    | none => some .recordNotFound
    | some p =>
      if p.quantity + netDelta t items pid < 0 then some (.notEnoughStock pid)
      else if 65535 < p.quantity + netDelta t items pid then some (.exceedsMaxStock pid)
      else firstBoundsViolation db t items rest

/-- Atomic increment of the quantity of the first product row with the given
id (prisma update by unique id with an increment). -/
def incQty : List Product → Int → Int → List Product
  | [], _, _ => []
  | p :: ps, pid, d =>
    if (p.id : Int) = pid then { p with quantity := p.quantity + d } :: ps
    else p :: incQty ps pid d

/-- One product update of the increment loops: a missing row makes the prisma
update throw, and the quantity selected back after the increment is checked
against the bounds; a violation aborts the unit of work. -/
def incProductChecked (db : DB) (pid : Int) (d : Int) : Except Err DB :=
  match findProduct db pid with
  | none => .error .recordNotFound
  | some p =>
    if p.quantity + d < 0 then .error (.notEnoughStock pid)
    else if 65535 < p.quantity + d then .error (.exceedsMaxStock pid)
    else .ok { db with products := incQty db.products pid d }

/-- The increment loop applied to the per-product net deltas. -/
def applyIncrements : DB → List (Int × Int) → Except Err DB
  | db, [] => .ok db
  | db, (pid, d) :: rest =>
    match incProductChecked db pid d with
    | .error e => .error e
    | .ok db1 => applyIncrements db1 rest

/-- The movement header built by the bulk endpoints, with the counterparty
names snapshotted at creation time. -/
def mkTxn (db : DB) (req : MovReq) : Txn :=
  { id := db.nextTxnId, mtype := req.mtype,
    supplierId := req.supplierId,
    supplierName := req.supplierId.bind (fun sid => (findSupplier db sid).map Supplier.name),
    destinationId := req.destinationId,
    destinationName := req.destinationId.bind (fun did => (findLocation db did).map Location.name),
    workerId := req.workerId }

/-- Insertion of the movement header. -/
def insertHeader (db : DB) (req : MovReq) : DB :=
  { db with txns := db.txns ++ [mkTxn db req], nextTxnId := db.nextTxnId + 1 }

/-- The item creation loop: one line item per request item, referencing the
resolved product and snapshotting its name, with the signed delta. -/
def insertItems (db : DB) (tid : Nat) (t : MType) : List RawItem → DB
  | [] => db
  | it :: rest =>
    insertItems
      { db with
          items := db.items ++
            [{ id := db.nextItemId, transactionId := tid,
               productId := (findProduct db it.productId).map Product.id,
               productName := ((findProduct db it.productId).map Product.name).getD "",
               delta := signedDelta t it.delta }],
          nextItemId := db.nextItemId + 1 } tid t rest

/-- Header plus items of one movement request. -/
def insertAll (db : DB) (req : MovReq) : DB :=
  insertItems (insertHeader db req) db.nextTxnId req.mtype req.items

/-- The unit of work of POST /api/transactions: resolve all products, resolve
the optional counterparties, pre-check every net delta, then write the header,
the items and the checked increments. -/
def createMovementTx (db : DB) (req : MovReq) : Except Err DB :=
  match firstMissingProduct db (movPids req) with
  | some pid => .error (.productNotFound pid)
  | none =>
    match checkCounterparties db req.supplierId req.destinationId req.workerId with
    | some e => .error e
    | none =>
      match firstBoundsViolation db req.mtype req.items (sortInts (movPids req)) with
      | some e => .error e
      | none => applyIncrements (insertAll db req) (netList req)

/-- POST /api/transactions: input validation outside the unit of work, then
the transactional body with rollback on error. -/
def createMovement (db : DB) (req : MovReq) : DB × Option Err :=
  if req.items.isEmpty then (db, some .itemsRequired)
  else
    match validateItems req.items with
    | some e => (db, some e)
    | none => runTx db (createMovementTx db req)

/-- The unit of work of POST /api/transactions/bulk-adjust: identical to the
movement creation body except that there is no pre-check loop; only the
post-increment checks guard the bounds. -/
def bulkAdjustTx (db : DB) (req : MovReq) : Except Err DB :=
  match firstMissingProduct db (movPids req) with
  | some pid => .error (.productNotFound pid)
  | none =>
    match checkCounterparties db req.supplierId req.destinationId req.workerId with
    | some e => .error e
    | none => applyIncrements (insertAll db req) (netList req)

/-- POST /api/transactions/bulk-adjust. -/
def bulkAdjust (db : DB) (req : MovReq) : DB × Option Err :=
  if req.items.isEmpty then (db, some .itemsRequired)
  else
    match validateItems req.items with
    | some e => (db, some e)
    | none => runTx db (bulkAdjustTx db req)

/-- Body of POST /api/products/:id/adjust. -/
structure AdjustReq where
  mtype : MType
  delta : Int
  supplierId : Option Nat
  destinationId : Option Nat
  workerId : Option Nat
deriving Repr, DecidableEq

/-- The movement header built by the adjust endpoint. -/
def mkAdjustTxn (db : DB) (req : AdjustReq) : Txn :=
  { id := db.nextTxnId, mtype := req.mtype,
    supplierId := req.supplierId,
    supplierName := req.supplierId.bind (fun sid => (findSupplier db sid).map Supplier.name),
    destinationId := req.destinationId,
    destinationName := req.destinationId.bind (fun did => (findLocation db did).map Location.name),
    workerId := req.workerId }

/-- Insertion of the header and the single line item the adjust endpoint
writes before its checked increment. -/
def addAdjustRows (db : DB) (req : AdjustReq) (p : Product) : DB :=
  { db with
      txns := db.txns ++ [mkAdjustTxn db req],
      nextTxnId := db.nextTxnId + 1,
      items := db.items ++
        [{ id := db.nextItemId, transactionId := db.nextTxnId,
           productId := some p.id, productName := p.name,
           delta := signedDelta req.mtype req.delta }],
      nextItemId := db.nextItemId + 1 }

/-- The unit of work of POST /api/products/:id/adjust: supplier and
destination are looked up explicitly; a missing worker or product makes the
corresponding insert violate its foreign key and the prisma write throw; on
success the header, one item and the checked increment are written. -/
def adjustTx (db : DB) (pid : Int) (req : AdjustReq) : Except Err DB :=
  match checkCounterparties db req.supplierId req.destinationId none with
  | some e => .error e
  | none =>
    if req.workerId.any (fun wid => (findWorker db wid).isNone) then .error .recordNotFound
    else
      match findProduct db pid with
      | none => .error .recordNotFound
      | some p => incProductChecked (addAdjustRows db req p) pid (signedDelta req.mtype req.delta)

/-- POST /api/products/:id/adjust: the delta must be a positive integer, then
the transactional body runs with rollback on error. -/
def adjust (db : DB) (pid : Int) (req : AdjustReq) : DB × Option Err :=
  if req.delta ≤ 0 then (db, some .invalidDelta)
  else runTx db (adjustTx db pid req)

/-- Insertion of the new line item row of the add-item endpoint. -/
def addItemRow (db : DB) (tid : Nat) (p : Product) (numericDelta : Int) : DB :=
  { db with
      items := db.items ++
        [{ id := db.nextItemId, transactionId := tid, productId := some p.id,
           productName := p.name, delta := numericDelta }],
      nextItemId := db.nextItemId + 1 }

/-- POST /api/transactions/:id/items: adds one line item to an existing
movement, deriving the sign from the stored movement type, with a pre-check
of the relevant bound and the checked increment inside the unit of work. -/
def addItem (db : DB) (tid : Nat) (productId : Int) (rawDelta : Int) : DB × Option Err :=
  match db.txns.find? (fun t => t.id == tid) with
  | none => (db, some .transactionNotFound)
  | some t =>
    match findProduct db productId with
    | none => (db, some (.productNotFound productId))
    | some p =>
      if rawDelta ≤ 0 then (db, some .invalidDelta)
      else if t.mtype = .tout ∧ p.quantity + signedDelta t.mtype rawDelta < 0 then
        (db, some (.notEnoughStock productId))
      else if t.mtype = .tin ∧ 65535 < p.quantity + signedDelta t.mtype rawDelta then
        (db, some (.exceedsMaxStock productId))
      else
        runTx db
          (incProductChecked (addItemRow db tid p (signedDelta t.mtype rawDelta))
            productId (signedDelta t.mtype rawDelta))

/-- Update of the first line item with the given id to a new signed delta. -/
def setItemDelta : List TxnItem → Nat → Int → List TxnItem
  | [], _, _ => []
  | it :: its, iid, d =>
    if it.id = iid then { it with delta := d } :: its
    else it :: setItemDelta its iid d

/-- Removal of the first line item with the given id (prisma delete by unique
id); the movement header is left untouched. -/
def eraseItem : List TxnItem → Nat → List TxnItem
  | [], _ => []
  | it :: its, iid => if it.id = iid then its else it :: eraseItem its iid

/-- The unit of work of PATCH /api/transactions/:id/items/:itemId: the item is
re-read inside the transaction, the difference between the new and the stored
signed delta is applied as a checked increment when the product reference is
live, and the item delta is updated. -/
def editItemTx (db : DB) (itemId : Nat) (numericDelta : Int) : Except Err DB :=
  match db.items.find? (fun it => it.id == itemId) with
  | none => .error .itemNotFound
  | some cur =>
    match (match itemProduct db cur with
           | some p => incProductChecked db (p.id : Int) (numericDelta - cur.delta)
           | none => .ok db) with
    | .error e => .error e
    | .ok db1 => .ok { db1 with items := setItemDelta db1.items itemId numericDelta }

/-- PATCH /api/transactions/:id/items/:itemId: the item must exist and belong
to the movement, the new delta must be a positive integer whose sign is
derived from the movement type, the incremental difference is pre-checked
against the current quantity, and the transactional body applies it. -/
def editItem (db : DB) (tid itemId : Nat) (rawDelta : Int) : DB × Option Err :=
  match db.items.find? (fun it => it.id == itemId) with
  | none => (db, some .itemNotFound)
  | some item =>
    if item.transactionId ≠ tid then (db, some .wrongTransaction)
    else if rawDelta ≤ 0 then (db, some .invalidDelta)
    else
      match db.txns.find? (fun t => t.id == item.transactionId) with
      | none => (db, some .recordNotFound)
      | some t =>
        match itemProduct db item with
        | some p =>
          if p.quantity + (signedDelta t.mtype rawDelta - item.delta) < 0 then
            (db, some (.notEnoughStock (p.id : Int)))
          else if 65535 < p.quantity + (signedDelta t.mtype rawDelta - item.delta) then
            (db, some (.exceedsMaxStock (p.id : Int)))
          else runTx db (editItemTx db itemId (signedDelta t.mtype rawDelta))
        | none => runTx db (editItemTx db itemId (signedDelta t.mtype rawDelta))

/-- The compensating increment of the item-delete unit of work: the reversed
delta is applied as a checked increment only when the product reference is
live and the delta is nonzero. -/
def deleteCompensation (db : DB) (item : TxnItem) : Except Err DB :=
  match itemProduct db item with
  | some p =>
    if item.delta ≠ 0 then incProductChecked db (p.id : Int) (-item.delta) else .ok db
  | none => .ok db

/-- DELETE /api/transactions/:id/items/:itemId: the item must exist and belong
to the movement; inside the unit of work the compensating increment is applied
and the item row is deleted.  The movement header is not removed, even when
this was its last item. -/
def deleteItem (db : DB) (tid itemId : Nat) : DB × Option Err :=
  match db.items.find? (fun it => it.id == itemId) with
  | none => (db, some .itemNotFound)
  | some item =>
    if item.transactionId ≠ tid then (db, some .wrongTransaction)
    else
      match deleteCompensation db item with
      | .error e => (db, some e)
      | .ok db1 => ({ db1 with items := eraseItem db1.items itemId }, none)

/-- Body of POST /api/products. -/
structure ProductReq where
  name : String
  unit : String
  quantity : Int
  supplierId : Option Nat
deriving Repr, DecidableEq

/-- Insertion of the initial inbound movement header and its single item. -/
def pushInitialTxn (db : DB) (p : Product) (q : Int) (sid : Option Nat) (sname : Option String) : DB :=
  { db with
      txns := db.txns ++
        [{ id := db.nextTxnId, mtype := .tin, supplierId := sid, supplierName := sname,
           destinationId := none, destinationName := none, workerId := none }],
      nextTxnId := db.nextTxnId + 1,
      items := db.items ++
        [{ id := db.nextItemId, transactionId := db.nextTxnId, productId := some p.id,
           productName := p.name, delta := q }],
      nextItemId := db.nextItemId + 1 }

/-- The initial inbound movement a product creation tries to record: one
header (snapshotting the supplier name when the supplier resolves) and one
item carrying the initial quantity.  When the given supplierId resolves to no
supplier the insert violates its foreign key and the caught error leaves the
store without the movement. -/
def initialTxn (db : DB) (p : Product) (q : Int) (sup : Option Nat) : DB :=
  match sup with
  | some sid =>
    match findSupplier db sid with
    | none => db
    | some s => pushInitialTxn db p q (some sid) (some s.name)
  | none => pushInitialTxn db p q none none

/-- POST /api/products: validates the name and the quantity bounds, rejects a
duplicate normalized name, creates the product, and for a positive initial
quantity tries to create an initial inbound movement with one item carrying
the initial quantity.  A failure of that movement creation (for instance a
foreign-key violation from an unknown supplierId) is caught and swallowed:
the product keeps its quantity with no line item behind it. -/
def mkNewProduct (db : DB) (req : ProductReq) : Product :=
  { id := db.nextProductId, name := trimStr req.name, nameNormalized := lowerStr (trimStr req.name),
    sku := none, quantity := req.quantity }

def createProduct (db : DB) (req : ProductReq) : DB × Option Err :=
  if trimStr req.name = "" then (db, some .nameRequired)
  else if req.quantity < 0 then (db, some .invalidQuantity)
  else if 65535 < req.quantity then (db, some .quantityTooLarge)
  else if db.products.any (fun p => p.nameNormalized == lowerStr (trimStr req.name)) then
    (db, some .duplicateName)
  else if 0 < req.quantity then
    (initialTxn
      { db with products := db.products ++ [mkNewProduct db req],
                nextProductId := db.nextProductId + 1 }
      (mkNewProduct db req) req.quantity req.supplierId, none)
  else
    ({ db with products := db.products ++ [mkNewProduct db req],
               nextProductId := db.nextProductId + 1 }, none)

/-- The ledger operations of the claims about sequences of mutations. -/
inductive LedgerOp where
  | createProduct (req : ProductReq)
  | adjust (pid : Int) (req : AdjustReq)
  | createMov (req : MovReq)
  | bulkAdjust (req : MovReq)
  | addItem (tid : Nat) (productId : Int) (rawDelta : Int)
  | editItem (tid itemId : Nat) (rawDelta : Int)
  | deleteItem (tid itemId : Nat)
deriving Repr, DecidableEq

/-- One accepted-or-rejected ledger operation: the resulting database and the
error, if any. -/
def stepRes (db : DB) : LedgerOp → DB × Option Err
  | .createProduct req => createProduct db req
  | .adjust pid req => adjust db pid req
  | .createMov req => createMovement db req
  | .bulkAdjust req => bulkAdjust db req
  | .addItem tid productId rawDelta => addItem db tid productId rawDelta
  | .editItem tid itemId rawDelta => editItem db tid itemId rawDelta
  | .deleteItem tid itemId => deleteItem db tid itemId

/-- The database after one ledger operation. -/
def stepOp (db : DB) (op : LedgerOp) : DB :=
  (stepRes db op).1

/-- The bounds invariant: every product quantity lies in the range 0 to
65535. -/
def InBounds (db : DB) : Prop :=
  ∀ p ∈ db.products, 0 ≤ p.quantity ∧ p.quantity ≤ 65535

/-- The signed sum of the live line items of one product, from a baseline of
zero. -/
def liveSum (db : DB) (pid : Nat) : Int :=
  db.items.foldl (fun acc it => if it.productId = some pid then acc + it.delta else acc) 0

/-- Some requested product id of a movement does not resolve to a product. -/
def missingProduct (db : DB) (req : MovReq) : Prop :=
  ∃ pid ∈ movPids req, findProduct db pid = none

/-- Some referenced counterparty of a movement does not resolve. -/
def missingCounterparty (db : DB) (req : MovReq) : Prop :=
  (∃ sid, req.supplierId = some sid ∧ findSupplier db sid = none) ∨
  (∃ did, req.destinationId = some did ∧ findLocation db did = none) ∨
  (∃ wid, req.workerId = some wid ∧ findWorker db wid = none)

/-- Some product of a movement request would end out of bounds under its
combined net delta. -/
def boundsViolation (db : DB) (req : MovReq) : Prop :=
  ∃ pid ∈ movPids req, ∃ p, findProduct db pid = some p ∧
    (p.quantity + netDelta req.mtype req.items pid < 0 ∨
     65535 < p.quantity + netDelta req.mtype req.items pid)

/-- The error the pre-check loop reports for a product whose combined delta
violates a bound. -/
def violErr (t : MType) (items : List RawItem) (pid : Int) (p : Product) : Err :=
  if p.quantity + netDelta t items pid < 0 then .notEnoughStock pid
  else .exceedsMaxStock pid

/-- An empty store. -/
def dbEmpty : DB :=
  { products := [], txns := [], items := [], tools := [], assignments := [],
    suppliers := [], locations := [], workers := [],
    nextProductId := 1, nextTxnId := 1, nextItemId := 1, nextAssignId := 1 }

/-- A store holding one product with quantity 8. -/
def dbP : DB :=
  { dbEmpty with products := [{ id := 1, name := "bolt", nameNormalized := "bolt",
                                sku := none, quantity := 8 }], nextProductId := 2 }

/-- An outbound movement request listing the same product twice, 5 each. -/
def reqDouble : MovReq :=
  { mtype := .tout, items := [⟨1, 5⟩, ⟨1, 5⟩],
    supplierId := none, destinationId := none, workerId := none }

/-- A product-creation request with initial quantity 5 and a supplierId that
resolves to no supplier. -/
def reqInit : ProductReq :=
  { name := "x", unit := "kg", quantity := 5, supplierId := some 9 }

/-- A store with one product at quantity 15 behind one outbound movement whose
single line item already carries the signed delta -5. -/
def dbE : DB :=
  { dbEmpty with
      products := [{ id := 1, name := "bolt", nameNormalized := "bolt", sku := none, quantity := 15 }],
      txns := [{ id := 1, mtype := .tout, supplierId := none, supplierName := none,
                 destinationId := none, destinationName := none, workerId := none }],
      items := [{ id := 1, transactionId := 1, productId := some 1, productName := "bolt", delta := -5 }],
      nextProductId := 2, nextTxnId := 2, nextItemId := 2 }

/-- A store whose single line item lost its product reference (the product
was purged, the foreign key set the reference to null). -/
def dbNull : DB :=
  { dbEmpty with
      products := [{ id := 1, name := "bolt", nameNormalized := "bolt", sku := none, quantity := 7 }],
      txns := [{ id := 1, mtype := .tout, supplierId := none, supplierName := none,
                 destinationId := none, destinationName := none, workerId := none }],
      items := [{ id := 1, transactionId := 1, productId := none, productName := "gone", delta := -4 }],
      nextProductId := 2, nextTxnId := 2, nextItemId := 2 }

/-- A store with one worker and one tool, 5 of 5 available. -/
def dbW : DB :=
  { dbEmpty with
      tools := [{ id := 1, name := "hammer", totalQuantity := 5, availableQuantity := 5, deleted := false }],
      workers := [{ id := 1, name := "alice" }] }

/-- A store where 3 of the 5 hammers are checked out to the worker. -/
def dbW2 : DB :=
  { dbEmpty with
      tools := [{ id := 1, name := "hammer", totalQuantity := 5, availableQuantity := 2, deleted := false }],
      workers := [{ id := 1, name := "alice" }],
      assignments := [{ id := 1, toolId := 1, workerId := 1, quantity := 3, returned := false }],
      nextAssignId := 2 }

lemma runTx_error_fst {db : DB} {r : Except Err DB} {e : Err}
    (h : (runTx db r).2 = some e) : (runTx db r).1 = db := by
  cases r <;> simp [runTx] at h ⊢

lemma mem_incQty {l : List Product} {pid d : Int} {q : Product} (h : q ∈ incQty l pid d) :
    q ∈ l ∨ ∃ p, l.find? (fun r => (r.id : Int) == pid) = some p ∧
      q = { p with quantity := p.quantity + d } := by
  induction l with
  | nil => simp [incQty] at h
  | cons p ps ih =>
    by_cases hp : (p.id : Int) = pid
    · rw [incQty, if_pos hp] at h
      rcases List.mem_cons.mp h with h1 | h1
      · exact .inr ⟨p, by simp [List.find?_cons_of_pos, hp], h1⟩
      · exact .inl (List.mem_cons_of_mem _ h1)
    · rw [incQty, if_neg hp] at h
      rcases List.mem_cons.mp h with h1 | h1
      · exact .inl (h1 ▸ List.mem_cons_self _ _)
      · rcases ih h1 with h2 | ⟨p1, hf, hq⟩
        · exact .inl (List.mem_cons_of_mem _ h2)
        · refine .inr ⟨p1, ?_, hq⟩
          rw [List.find?_cons_of_neg _ (by simp [hp]), hf]

lemma incChecked_ok {db : DB} {pid d : Int} {db1 : DB}
    (h : incProductChecked db pid d = .ok db1) :
    ∃ p, findProduct db pid = some p ∧ 0 ≤ p.quantity + d ∧ p.quantity + d ≤ 65535 ∧
      db1 = { db with products := incQty db.products pid d } := by
  unfold incProductChecked at h
  split at h
  · simp at h
  · rename_i p hf
    split at h
    · simp at h
    · split at h
      · simp at h
      · rename_i h1 h2
        exact ⟨p, hf, le_of_not_lt h1, le_of_not_lt h2, (Except.ok.inj h).symm⟩

lemma incChecked_ok_mem {db : DB} {pid d : Int} {db1 : DB}
    (h : incProductChecked db pid d = .ok db1) :
    ∀ q ∈ db1.products, q ∈ db.products ∨ (0 ≤ q.quantity ∧ q.quantity ≤ 65535) := by
  obtain ⟨p, hf, h0, h65, rfl⟩ := incChecked_ok h
  intro q hq
  rcases mem_incQty hq with h1 | ⟨p1, hfind, rfl⟩
  · exact .inl h1
  · have hp1 : p1 = p := by
      have hff : findProduct db pid = some p1 := hfind
      rw [hff] at hf
      exact Option.some.inj hf
    subst hp1
    exact .inr ⟨h0, h65⟩

lemma applyIncrements_ok_mem :
    ∀ {l : List (Int × Int)} {db db1 : DB}, applyIncrements db l = .ok db1 →
      ∀ q ∈ db1.products, q ∈ db.products ∨ (0 ≤ q.quantity ∧ q.quantity ≤ 65535) := by
  intro l
  induction l with
  | nil =>
    intro db db1 h q hq
    rw [applyIncrements] at h
    exact .inl ((Except.ok.inj h) ▸ hq)
  | cons hd tl ih =>
    intro db db1 h q hq
    obtain ⟨pid, d⟩ := hd
    rw [applyIncrements] at h
    cases hstep : incProductChecked db pid d with
    | error e => rw [hstep] at h; simp at h
    | ok dbm =>
      rw [hstep] at h
      rcases ih h q hq with h1 | h1
      · exact incChecked_ok_mem hstep q h1
      · exact .inr h1

lemma insertItems_products (tid : Nat) (t : MType) :
    ∀ (l : List RawItem) (db : DB), (insertItems db tid t l).products = db.products := by
  intro l
  induction l with
  | nil => intro db; rfl
  | cons it rest ih => intro db; rw [insertItems]; exact ih _

lemma insertAll_products (db : DB) (req : MovReq) :
    (insertAll db req).products = db.products := by
  rw [insertAll, insertItems_products]
  rfl

lemma mem_insertAsc {a x : Int} {l : List Int} :
    a ∈ insertAsc x l ↔ a = x ∨ a ∈ l := by
  induction l with
  | nil => simp [insertAsc]
  | cons y ys ih =>
    by_cases h : x ≤ y
    · simp [insertAsc, if_pos h]
    · simp [insertAsc, if_neg h, ih]
      tauto

lemma mem_sortInts {a : Int} {l : List Int} : a ∈ sortInts l ↔ a ∈ l := by
  induction l with
  | nil => simp [sortInts]
  | cons x xs ih =>
    simp only [sortInts, List.foldr] at ih ⊢
    rw [mem_insertAsc, ih, List.mem_cons]

lemma mem_dedupFirstAux {a : Int} :
    ∀ {l seen : List Int}, a ∈ dedupFirstAux seen l ↔ a ∈ l ∧ a ∉ seen := by
  intro l
  induction l with
  | nil => intro seen; simp [dedupFirstAux]
  | cons x xs ih =>
    intro seen
    by_cases hx : x ∈ seen
    · rw [dedupFirstAux, if_pos hx, ih]
      constructor
      · rintro ⟨h1, h2⟩; exact ⟨List.mem_cons_of_mem _ h1, h2⟩
      · rintro ⟨h1, h2⟩
        rcases List.mem_cons.mp h1 with rfl | h1
        · exact absurd hx h2
        · exact ⟨h1, h2⟩
    · rw [dedupFirstAux, if_neg hx]
      constructor
      · intro h
        rcases List.mem_cons.mp h with rfl | h1
        · exact ⟨List.mem_cons_self _ _, hx⟩
        · obtain ⟨h2, h3⟩ := ih.mp h1
          refine ⟨List.mem_cons_of_mem _ h2, fun hc => h3 (List.mem_cons_of_mem _ hc)⟩
      · rintro ⟨h1, h2⟩
        rcases List.mem_cons.mp h1 with rfl | h1
        · exact List.mem_cons_self _ _
        · by_cases hax : a = x
          · exact hax ▸ List.mem_cons_self _ _
          · exact List.mem_cons_of_mem _ (ih.mpr ⟨h1, by simp [hax, h2]⟩)

lemma mem_dedupFirst {a : Int} {l : List Int} : a ∈ dedupFirst l ↔ a ∈ l := by
  rw [dedupFirst, mem_dedupFirstAux]
  simp

lemma insertAsc_eq_orderedInsert (x : Int) (l : List Int) :
    insertAsc x l = List.orderedInsert (· ≤ ·) x l := by
  induction l with
  | nil => rfl
  | cons y ys ih => simp [insertAsc, List.orderedInsert, ih]

lemma sortInts_eq_insertionSort (l : List Int) :
    sortInts l = List.insertionSort (· ≤ ·) l := by
  induction l with
  | nil => rfl
  | cons x xs ih =>
    simp only [sortInts, List.foldr] at ih ⊢
    rw [ih, insertAsc_eq_orderedInsert, List.insertionSort]

lemma sortInts_sorted (l : List Int) : (sortInts l).Sorted (· ≤ ·) := by
  rw [sortInts_eq_insertionSort]
  exact List.sorted_insertionSort _ l

lemma sortInts_perm (l : List Int) : List.Perm (sortInts l) l := by
  rw [sortInts_eq_insertionSort]
  exact List.perm_insertionSort _ l

lemma sortInts_nodup {l : List Int} (h : l.Nodup) : (sortInts l).Nodup := by
  exact (List.Perm.nodup_iff (sortInts_perm l)).mpr h

lemma dedupFirstAux_nodup : ∀ {l seen : List Int}, (dedupFirstAux seen l).Nodup := by
  intro l
  induction l with
  | nil => intro seen; simp [dedupFirstAux]
  | cons x xs ih =>
    intro seen
    by_cases hx : x ∈ seen
    · rw [dedupFirstAux, if_pos hx]
      exact ih
    · rw [dedupFirstAux, if_neg hx]
      refine List.nodup_cons.mpr ⟨?_, ih⟩
      intro hc
      exact (mem_dedupFirstAux.mp hc).2 (List.mem_cons_self _ _)

lemma dedupFirst_nodup {l : List Int} : (dedupFirst l).Nodup :=
  dedupFirstAux_nodup

lemma firstBoundsViolation_first {db : DB} {t : MType} {items : List RawItem} :
    ∀ {l : List Int}, l.Sorted (· ≤ ·) → l.Nodup →
      (∀ pid2 ∈ l, (findProduct db pid2).isSome) →
      ∀ {pid : Int} {p : Product}, pid ∈ l → findProduct db pid = some p →
        (p.quantity + netDelta t items pid < 0 ∨
         65535 < p.quantity + netDelta t items pid) →
        (∀ pid2 ∈ l, pid2 < pid → ∀ p2, findProduct db pid2 = some p2 →
          0 ≤ p2.quantity + netDelta t items pid2 ∧
          p2.quantity + netDelta t items pid2 ≤ 65535) →
        firstBoundsViolation db t items l = some (violErr t items pid p) := by
  intro l
  induction l with
  | nil =>
    intro _ _ _ pid p hmem
    simp at hmem
  | cons x xs ih =>
    intro hsort hnd hres pid p hmem hfp hviol hfirst
    rcases List.mem_cons.mp hmem with rfl | hmem1
    · rw [firstBoundsViolation, hfp]
      dsimp only
      rcases hviol with h1 | h1
      · rw [if_pos h1]
        rw [violErr, if_pos h1]
      · have h2 : ¬(p.quantity + netDelta t items pid < 0) := by linarith
        rw [if_neg h2, if_pos h1]
        rw [violErr, if_neg h2]
    · have hxle : x ≤ pid := (List.sorted_cons.mp hsort).1 pid hmem1
      have hxne : x ≠ pid := by
        intro h0
        exact (List.nodup_cons.mp hnd).1 (h0 ▸ hmem1)
      have hxlt : x < pid := lt_of_le_of_ne hxle hxne
      obtain ⟨p2, hp2⟩ := Option.isSome_iff_exists.mp (hres x (List.mem_cons_self _ _))
      have hok := hfirst x (List.mem_cons_self _ _) hxlt p2 hp2
      rw [firstBoundsViolation, hp2]
      dsimp only
      rw [if_neg (not_lt.mpr hok.1), if_neg (not_lt.mpr hok.2)]
      exact ih (List.sorted_cons.mp hsort).2 (List.nodup_cons.mp hnd).2
        (fun pid2 h2 => hres pid2 (List.mem_cons_of_mem _ h2)) hmem1 hfp hviol
        (fun pid2 h2 hlt => hfirst pid2 (List.mem_cons_of_mem _ h2) hlt)

lemma firstMissingProduct_none {db : DB} :
    ∀ {l : List Int}, firstMissingProduct db l = none →
      ∀ pid ∈ l, (findProduct db pid).isSome := by
  intro l
  induction l with
  | nil => intro _ pid h; simp at h
  | cons x xs ih =>
    intro h pid hm
    rw [firstMissingProduct] at h
    by_cases hx : (findProduct db x).isNone
    · rw [if_pos hx] at h; simp at h
    · rw [if_neg hx] at h
      rcases List.mem_cons.mp hm with rfl | hm1
      · simpa [Option.isNone_iff_eq_none, ← Option.ne_none_iff_isSome] using hx
      · exact ih h pid hm1

lemma firstBoundsViolation_none {db : DB} {t : MType} {items : List RawItem} :
    ∀ {l : List Int}, firstBoundsViolation db t items l = none →
      ∀ pid ∈ l, ∀ p, findProduct db pid = some p →
        0 ≤ p.quantity + netDelta t items pid ∧ p.quantity + netDelta t items pid ≤ 65535 := by
  intro l
  induction l with
  | nil => intro _ pid h; simp at h
  | cons x xs ih =>
    intro h pid hm p hp
    rw [firstBoundsViolation] at h
    split at h
    · simp at h
    · rename_i px hf
      split at h
      · simp at h
      · split at h
        · simp at h
        · rename_i h1 h2
          rcases List.mem_cons.mp hm with rfl | hm1
          · rw [hp] at hf
            cases Option.some.inj hf
            exact ⟨le_of_not_lt h1, le_of_not_lt h2⟩
          · exact ih h pid hm1 p hp

lemma checkCounterparties_none {db : DB} {sup dest work : Option Nat}
    (h : checkCounterparties db sup dest work = none) :
    (∀ sid, sup = some sid → (findSupplier db sid).isSome) ∧
    (∀ did, dest = some did → (findLocation db did).isSome) ∧
    (∀ wid, work = some wid → (findWorker db wid).isSome) := by
  unfold checkCounterparties at h
  by_cases h1 : sup.any (fun sid => (findSupplier db sid).isNone)
  · rw [if_pos h1] at h; simp at h
  · rw [if_neg h1] at h
    by_cases h2 : dest.any (fun did => (findLocation db did).isNone)
    · rw [if_pos h2] at h; simp at h
    · rw [if_neg h2] at h
      by_cases h3 : work.any (fun wid => (findWorker db wid).isNone)
      · rw [if_pos h3] at h; simp at h
      · refine ⟨fun sid hs => ?_, fun did hd => ?_, fun wid hw => ?_⟩
        · subst hs
          cases hft : findSupplier db sid with
          | none => exact absurd (by simp [Option.any, hft]) h1
          | some s => simp
        · subst hd
          cases hft : findLocation db did with
          | none => exact absurd (by simp [Option.any, hft]) h2
          | some s => simp
        · subst hw
          cases hft : findWorker db wid with
          | none => exact absurd (by simp [Option.any, hft]) h3
          | some s => simp

lemma initialTxn_products (db : DB) (p : Product) (q : Int) (sup : Option Nat) :
    (initialTxn db p q sup).products = db.products := by
  cases sup with
  | none => rfl
  | some sid =>
    cases hf : findSupplier db sid with
    | none => simp [initialTxn, hf]
    | some s => simp [initialTxn, hf, pushInitialTxn]

lemma createProduct_inBounds (db : DB) (req : ProductReq) (h : InBounds db) :
    InBounds (createProduct db req).1 := by
  unfold createProduct
  split
  · exact h
  split
  · exact h
  split
  · exact h
  split
  · exact h
  rename_i hname hq0 hq65 hdup
  have hmem : ∀ q ∈ db.products ++ [mkNewProduct db req], 0 ≤ q.quantity ∧ q.quantity ≤ 65535 := by
    intro q hq
    rcases List.mem_append.mp hq with h1 | h1
    · exact h q h1
    · rcases List.mem_singleton.mp h1 with rfl
      exact ⟨le_of_not_lt hq0, le_of_not_lt hq65⟩
  split
  · intro q hq
    rw [initialTxn_products] at hq
    exact hmem q hq
  · intro q hq
    exact hmem q hq

lemma adjustTx_ok_mem {db : DB} {pid : Int} {req : AdjustReq} {db1 : DB}
    (h : adjustTx db pid req = .ok db1) :
    ∀ q ∈ db1.products, q ∈ db.products ∨ (0 ≤ q.quantity ∧ q.quantity ≤ 65535) := by
  unfold adjustTx at h
  split at h
  · simp at h
  · split at h
    · simp at h
    · split at h
      · simp at h
      · rename_i p hp
        intro q hq
        rcases incChecked_ok_mem h q hq with h1 | h1
        · exact .inl h1
        · exact .inr h1

lemma runTx_inBounds {db : DB} {r : Except Err DB} (h : InBounds db)
    (hok : ∀ db1, r = .ok db1 → InBounds db1) : InBounds (runTx db r).1 := by
  cases r with
  | error e => simpa [runTx] using h
  | ok db1 => simpa [runTx] using hok db1 rfl

lemma adjust_inBounds (db : DB) (pid : Int) (req : AdjustReq) (h : InBounds db) :
    InBounds (adjust db pid req).1 := by
  unfold adjust
  split
  · exact h
  · refine runTx_inBounds h (fun db1 hr => ?_)
    intro q hq
    rcases adjustTx_ok_mem hr q hq with h1 | h1
    · exact h q h1
    · exact h1

lemma createMovementTx_ok_mem {db : DB} {req : MovReq} {db1 : DB}
    (h : createMovementTx db req = .ok db1) :
    ∀ q ∈ db1.products, q ∈ db.products ∨ (0 ≤ q.quantity ∧ q.quantity ≤ 65535) := by
  unfold createMovementTx at h
  split at h
  · simp at h
  · split at h
    · simp at h
    · split at h
      · simp at h
      · intro q hq
        rcases applyIncrements_ok_mem h q hq with h1 | h1
        · rw [insertAll_products] at h1
          exact .inl h1
        · exact .inr h1

lemma bulkAdjustTx_ok_mem {db : DB} {req : MovReq} {db1 : DB}
    (h : bulkAdjustTx db req = .ok db1) :
    ∀ q ∈ db1.products, q ∈ db.products ∨ (0 ≤ q.quantity ∧ q.quantity ≤ 65535) := by
  unfold bulkAdjustTx at h
  split at h
  · simp at h
  · split at h
    · simp at h
    · intro q hq
      rcases applyIncrements_ok_mem h q hq with h1 | h1
      · rw [insertAll_products] at h1
        exact .inl h1
      · exact .inr h1

lemma createMovement_inBounds (db : DB) (req : MovReq) (h : InBounds db) :
    InBounds (createMovement db req).1 := by
  unfold createMovement
  split
  · exact h
  · split
    · exact h
    · refine runTx_inBounds h (fun db1 hr => ?_)
      intro q hq
      rcases createMovementTx_ok_mem hr q hq with h1 | h1
      · exact h q h1
      · exact h1

lemma bulkAdjust_inBounds (db : DB) (req : MovReq) (h : InBounds db) :
    InBounds (bulkAdjust db req).1 := by
  unfold bulkAdjust
  split
  · exact h
  · split
    · exact h
    · refine runTx_inBounds h (fun db1 hr => ?_)
      intro q hq
      rcases bulkAdjustTx_ok_mem hr q hq with h1 | h1
      · exact h q h1
      · exact h1

lemma addItem_inBounds (db : DB) (tid : Nat) (productId rawDelta : Int) (h : InBounds db) :
    InBounds (addItem db tid productId rawDelta).1 := by
  unfold addItem
  split
  · exact h
  · split
    · exact h
    · split
      · exact h
      split
      · exact h
      split
      · exact h
      refine runTx_inBounds h (fun db1 hr => ?_)
      intro q hq
      rcases incChecked_ok_mem hr q hq with h1 | h1
      · exact h q h1
      · exact h1

lemma editItemTx_ok_mem {db : DB} {itemId : Nat} {nd : Int} {db1 : DB}
    (h : editItemTx db itemId nd = .ok db1) :
    ∀ q ∈ db1.products, q ∈ db.products ∨ (0 ≤ q.quantity ∧ q.quantity ≤ 65535) := by
  unfold editItemTx at h
  split at h
  · simp at h
  · rename_i cur hfind
    split at h
    · simp at h
    · rename_i dbm heq
      have hdb1 : db1 = { dbm with items := setItemDelta dbm.items itemId nd } :=
        (Except.ok.inj h).symm
      subst hdb1
      intro q hq
      cases hip : itemProduct db cur with
      | some p =>
        rw [hip] at heq
        exact incChecked_ok_mem heq q hq
      | none =>
        rw [hip] at heq
        exact .inl ((Except.ok.inj heq) ▸ hq)

lemma editItem_inBounds (db : DB) (tid itemId : Nat) (rawDelta : Int) (h : InBounds db) :
    InBounds (editItem db tid itemId rawDelta).1 := by
  unfold editItem
  split
  · exact h
  · split
    · exact h
    split
    · exact h
    split
    · exact h
    split
    · split
      · exact h
      split
      · exact h
      refine runTx_inBounds h (fun db1 hr => ?_)
      intro q hq
      rcases editItemTx_ok_mem hr q hq with h1 | h1
      · exact h q h1
      · exact h1
    · refine runTx_inBounds h (fun db1 hr => ?_)
      intro q hq
      rcases editItemTx_ok_mem hr q hq with h1 | h1
      · exact h q h1
      · exact h1

lemma deleteCompensation_ok_mem {db : DB} {item : TxnItem} {db1 : DB}
    (h : deleteCompensation db item = .ok db1) :
    ∀ q ∈ db1.products, q ∈ db.products ∨ (0 ≤ q.quantity ∧ q.quantity ≤ 65535) := by
  unfold deleteCompensation at h
  split at h
  · rename_i p hp
    split at h
    · exact incChecked_ok_mem h
    · intro q hq
      exact .inl ((Except.ok.inj h) ▸ hq)
  · intro q hq
    exact .inl ((Except.ok.inj h) ▸ hq)

lemma deleteCompensation_ok_frame {db : DB} {item : TxnItem} {db1 : DB}
    (h : deleteCompensation db item = .ok db1) :
    db1.txns = db.txns ∧ db1.items = db.items := by
  unfold deleteCompensation at h
  split at h
  · rename_i p hp
    split at h
    · obtain ⟨p1, hf, h0, h65, rfl⟩ := incChecked_ok h
      exact ⟨rfl, rfl⟩
    · obtain rfl := Except.ok.inj h
      exact ⟨rfl, rfl⟩
  · obtain rfl := Except.ok.inj h
    exact ⟨rfl, rfl⟩

lemma deleteItem_inBounds (db : DB) (tid itemId : Nat) (h : InBounds db) :
    InBounds (deleteItem db tid itemId).1 := by
  unfold deleteItem
  split
  · exact h
  · split
    · exact h
    · split
      · exact h
      · rename_i db1 hcomp
        intro q hq
        rcases deleteCompensation_ok_mem hcomp q hq with h1 | h1
        · exact h q h1
        · exact h1

lemma stepRes_fst_inBounds (db : DB) (op : LedgerOp) (h : InBounds db) :
    InBounds (stepRes db op).1 := by
  cases op with
  | createProduct req => exact createProduct_inBounds db req h
  | adjust pid req => exact adjust_inBounds db pid req h
  | createMov req => exact createMovement_inBounds db req h
  | bulkAdjust req => exact bulkAdjust_inBounds db req h
  | addItem tid productId rawDelta => exact addItem_inBounds db tid productId rawDelta h
  | editItem tid itemId rawDelta => exact editItem_inBounds db tid itemId rawDelta h
  | deleteItem tid itemId => exact deleteItem_inBounds db tid itemId h

lemma runTx_cases (db : DB) (r : Except Err DB) :
    (∃ e, runTx db r = (db, some e)) ∨ (runTx db r).2 = none := by
  cases r with
  | ok db1 => exact .inr rfl
  | error e => exact .inl ⟨e, rfl⟩

lemma createProduct_cases (db : DB) (req : ProductReq) :
    (∃ e, createProduct db req = (db, some e)) ∨ (createProduct db req).2 = none := by
  unfold createProduct
  split
  · exact .inl ⟨_, rfl⟩
  split
  · exact .inl ⟨_, rfl⟩
  split
  · exact .inl ⟨_, rfl⟩
  split
  · exact .inl ⟨_, rfl⟩
  split
  · exact .inr rfl
  · exact .inr rfl

lemma adjust_cases (db : DB) (pid : Int) (req : AdjustReq) :
    (∃ e, adjust db pid req = (db, some e)) ∨ (adjust db pid req).2 = none := by
  unfold adjust
  split
  · exact .inl ⟨_, rfl⟩
  · exact runTx_cases db _

lemma createMovement_cases (db : DB) (req : MovReq) :
    (∃ e, createMovement db req = (db, some e)) ∨ (createMovement db req).2 = none := by
  unfold createMovement
  split
  · exact .inl ⟨_, rfl⟩
  · split
    · exact .inl ⟨_, rfl⟩
    · exact runTx_cases db _

lemma bulkAdjust_cases (db : DB) (req : MovReq) :
    (∃ e, bulkAdjust db req = (db, some e)) ∨ (bulkAdjust db req).2 = none := by
  unfold bulkAdjust
  split
  · exact .inl ⟨_, rfl⟩
  · split
    · exact .inl ⟨_, rfl⟩
    · exact runTx_cases db _

lemma addItem_cases (db : DB) (tid : Nat) (productId rawDelta : Int) :
    (∃ e, addItem db tid productId rawDelta = (db, some e)) ∨
      (addItem db tid productId rawDelta).2 = none := by
  unfold addItem
  split
  · exact .inl ⟨_, rfl⟩
  · split
    · exact .inl ⟨_, rfl⟩
    · split
      · exact .inl ⟨_, rfl⟩
      split
      · exact .inl ⟨_, rfl⟩
      split
      · exact .inl ⟨_, rfl⟩
      exact runTx_cases db _

lemma editItem_cases (db : DB) (tid itemId : Nat) (rawDelta : Int) :
    (∃ e, editItem db tid itemId rawDelta = (db, some e)) ∨
      (editItem db tid itemId rawDelta).2 = none := by
  unfold editItem
  split
  · exact .inl ⟨_, rfl⟩
  · split
    · exact .inl ⟨_, rfl⟩
    split
    · exact .inl ⟨_, rfl⟩
    split
    · exact .inl ⟨_, rfl⟩
    split
    · split
      · exact .inl ⟨_, rfl⟩
      split
      · exact .inl ⟨_, rfl⟩
      exact runTx_cases db _
    · exact runTx_cases db _

lemma deleteItem_cases (db : DB) (tid itemId : Nat) :
    (∃ e, deleteItem db tid itemId = (db, some e)) ∨ (deleteItem db tid itemId).2 = none := by
  unfold deleteItem
  split
  · exact .inl ⟨_, rfl⟩
  · split
    · exact .inl ⟨_, rfl⟩
    · split
      · exact .inl ⟨_, rfl⟩
      · exact .inr rfl

lemma stepRes_cases (db : DB) (op : LedgerOp) :
    (∃ e, stepRes db op = (db, some e)) ∨ (stepRes db op).2 = none := by
  cases op with
  | createProduct req => exact createProduct_cases db req
  | adjust pid req => exact adjust_cases db pid req
  | createMov req => exact createMovement_cases db req
  | bulkAdjust req => exact bulkAdjust_cases db req
  | addItem tid productId rawDelta => exact addItem_cases db tid productId rawDelta
  | editItem tid itemId rawDelta => exact editItem_cases db tid itemId rawDelta
  | deleteItem tid itemId => exact deleteItem_cases db tid itemId

lemma stepRes_error_unchanged (db : DB) (op : LedgerOp) (e : Err)
    (h : (stepRes db op).2 = some e) : (stepRes db op).1 = db := by
  rcases stepRes_cases db op with ⟨e1, heq⟩ | hn
  · rw [heq]
  · rw [hn] at h
    cases h

/-- C1: For every sequence of ledger operations (movement creation, adjust,
bulk adjust, line-item add, edit and delete, and product creation) starting
from a store whose product quantities all lie in the range 0 to 65535, every
product quantity stays in that range after every operation; moreover any
operation that reports an error leaves the store, hence every quantity,
unchanged. -/
theorem quantity_bounds_invariant (db : DB) (ops : List LedgerOp) (h : InBounds db) :
    InBounds (ops.foldl stepOp db) ∧
    ∀ (db1 : DB) (op : LedgerOp) (e : Err), (stepRes db1 op).2 = some e → stepOp db1 op = db1 := by
  constructor
  · induction ops generalizing db with
    | nil => exact h
    | cons op rest ih => exact ih (stepOp db op) (stepRes_fst_inBounds db op h)
  · intro db1 op e he
    exact stepRes_error_unchanged db1 op e he

/-- Witness for C1 at a concrete store and a concrete operation sequence. -/
theorem quantity_bounds_invariant_witness :
    InBounds dbP ∧
    (InBounds (([LedgerOp.createMov reqDouble,
                 LedgerOp.adjust 1 { mtype := .tout, delta := 8, supplierId := none,
                                     destinationId := none, workerId := none },
                 LedgerOp.bulkAdjust { mtype := .tin, items := [⟨1, 70000⟩], supplierId := none,
                                       destinationId := none, workerId := none }]).foldl stepOp dbP) ∧
     ∀ (db1 : DB) (op : LedgerOp) (e : Err), (stepRes db1 op).2 = some e → stepOp db1 op = db1) :=
  ⟨by unfold InBounds; decide,
   quantity_bounds_invariant dbP _ (by unfold InBounds; decide)⟩

/-- The atomic-rollback half of the bulk movement property: any missing
reference or bounds violation makes the call return the untouched store with
one error. -/
lemma bulk_movement_atomic_part1 (db : DB) (req : MovReq)
    (h : missingProduct db req ∨ missingCounterparty db req ∨ boundsViolation db req) :
    ∃ e, createMovement db req = (db, some e) := by
  unfold createMovement
  by_cases hemp : req.items.isEmpty
  · rw [if_pos hemp]
    exact ⟨_, rfl⟩
  · rw [if_neg hemp]
    cases hv : validateItems req.items with
    | some e => exact ⟨e, rfl⟩
    | none =>
      unfold createMovementTx
      cases hm : firstMissingProduct db (movPids req) with
      | some pid => exact ⟨Err.productNotFound pid, by simp [runTx]⟩
      | none =>
        cases hc : checkCounterparties db req.supplierId req.destinationId req.workerId with
        | some e => exact ⟨e, by simp [runTx]⟩
        | none =>
          cases hb : firstBoundsViolation db req.mtype req.items (sortInts (movPids req)) with
          | some e => exact ⟨e, by simp [runTx]⟩
          | none =>
            exfalso
            rcases h with hmp | hmc | hbv
            · obtain ⟨pid, hpm, hpn⟩ := hmp
              have hs := firstMissingProduct_none hm pid hpm
              rw [hpn] at hs
              simp at hs
            · obtain ⟨hs, hd, hw⟩ := checkCounterparties_none hc
              rcases hmc with ⟨sid, hse, hsn⟩ | ⟨did, hde, hdn⟩ | ⟨wid, hwe, hwn⟩
              · have h1 := hs sid hse
                rw [hsn] at h1
                simp at h1
              · have h1 := hd did hde
                rw [hdn] at h1
                simp at h1
              · have h1 := hw wid hwe
                rw [hwn] at h1
                simp at h1
            · obtain ⟨pid, hpm, p, hpf, hviol⟩ := hbv
              have h1 := firstBoundsViolation_none hb pid (mem_sortInts.mpr hpm) p hpf
              rcases hviol with h2 | h2
              · linarith [h1.1]
              · linarith [h1.2]

/-- C2: A bulk movement request that references a missing product or
counterparty, or whose combined net delta would push some product out of
bounds, yields exactly one error, and the store it returns is exactly the
store before the call: no header, no line item and no quantity change is
persisted.  Moreover, when the input validates, every reference resolves and
a product violates the bounds while every smaller-id product passes, the one
error returned is precisely the bounds error of that product: the first
violation the ascending per-product scan encounters. -/
theorem bulk_movement_atomic (db : DB) (req : MovReq)
    (h : missingProduct db req ∨ missingCounterparty db req ∨ boundsViolation db req) :
    (∃ e, createMovement db req = (db, some e)) ∧
    (∀ pid p, validateItems req.items = none →
      firstMissingProduct db (movPids req) = none →
      checkCounterparties db req.supplierId req.destinationId req.workerId = none →
      pid ∈ movPids req → findProduct db pid = some p →
      (p.quantity + netDelta req.mtype req.items pid < 0 ∨
       65535 < p.quantity + netDelta req.mtype req.items pid) →
      (∀ pid2 ∈ movPids req, pid2 < pid → ∀ p2, findProduct db pid2 = some p2 →
        0 ≤ p2.quantity + netDelta req.mtype req.items pid2 ∧
        p2.quantity + netDelta req.mtype req.items pid2 ≤ 65535) →
      createMovement db req = (db, some (violErr req.mtype req.items pid p))) := by
  constructor
  · exact bulk_movement_atomic_part1 db req h
  · intro pid p hval hm hc hpmem hfp hviol hfirst
    have hne : req.items ≠ [] := by
      intro h0
      unfold movPids at hpmem
      rw [h0] at hpmem
      simp [dedupFirst, dedupFirstAux] at hpmem
    have hscan := firstBoundsViolation_first
      (sortInts_sorted (movPids req)) (sortInts_nodup dedupFirst_nodup)
      (fun pid2 h2 => firstMissingProduct_none hm pid2 (mem_sortInts.mp h2))
      (mem_sortInts.mpr hpmem) hfp hviol
      (fun pid2 h2 hlt => hfirst pid2 (mem_sortInts.mp h2) hlt)
    unfold createMovement
    rw [if_neg (by simpa [List.isEmpty_iff] using hne)]
    rw [hval]
    unfold createMovementTx
    rw [hm, hc, hscan]
    simp [runTx]

/-- Witness for C2: the double-item overdraw on the quantity-8 product is a
bounds violation, and the call returns the untouched store with one error. -/
theorem bulk_movement_atomic_witness :
    boundsViolation dbP reqDouble ∧ ∃ e, createMovement dbP reqDouble = (dbP, some e) := by
  have hh : boundsViolation dbP reqDouble :=
    ⟨1, by decide, { id := 1, name := "bolt", nameNormalized := "bolt", sku := none, quantity := 8 },
     by decide, by decide⟩
  exact ⟨hh, (bulk_movement_atomic dbP reqDouble (Or.inr (Or.inr hh))).1⟩

/-- C3: The bulk movement endpoint collapses its item list by product into
one net delta and validates the combined delta: an outbound movement listing
a quantity-8 product twice with magnitude 5 each is rejected with a
not-enough-stock error on the combined delta of -10, and the store is
returned unchanged. -/
theorem net_delta_collapsing (db : DB) (p : Product)
    (hid : 1 ≤ p.id) (hfind : findProduct db (p.id : Int) = some p) (hq : p.quantity = 8) :
    createMovement db
      { mtype := .tout, items := [⟨(p.id : Int), 5⟩, ⟨(p.id : Int), 5⟩],
        supplierId := none, destinationId := none, workerId := none } =
      (db, some (Err.notEnoughStock (p.id : Int))) := by
  have hpos : (0 : Int) < (p.id : Int) := by exact_mod_cast hid
  have hnle : ¬((p.id : Int) ≤ 0) := not_le.mpr hpos
  have hval : validateItems [⟨(p.id : Int), 5⟩, ⟨(p.id : Int), 5⟩] = none := by
    simp [validateItems, hnle]
  have hpids : movPids
      { mtype := MType.tout, items := [⟨(p.id : Int), 5⟩, ⟨(p.id : Int), 5⟩],
        supplierId := none, destinationId := none, workerId := none } = [(p.id : Int)] := by
    simp [movPids, dedupFirst, dedupFirstAux]
  have hnet : netDelta MType.tout [⟨(p.id : Int), 5⟩, ⟨(p.id : Int), 5⟩] (p.id : Int) = -10 := by
    simp [netDelta, signedDelta]
  have hfb : firstBoundsViolation db MType.tout [⟨(p.id : Int), 5⟩, ⟨(p.id : Int), 5⟩]
      [(p.id : Int)] = some (Err.notEnoughStock (p.id : Int)) := by
    rw [firstBoundsViolation, hfind]
    simp [hnet, hq]
  unfold createMovement
  rw [if_neg (by simp)]
  rw [hval]
  unfold createMovementTx
  rw [hpids]
  rw [show firstMissingProduct db [(p.id : Int)] = none by simp [firstMissingProduct, hfind]]
  rw [show checkCounterparties db none none none = none by simp [checkCounterparties, Option.any]]
  rw [show sortInts [(p.id : Int)] = [(p.id : Int)] by simp [sortInts, insertAsc]]
  rw [hfb]
  simp [runTx]

/-- Witness for C3 on the concrete quantity-8 store. -/
theorem net_delta_collapsing_witness :
    1 ≤ (1 : Nat) ∧ createMovement dbP reqDouble = (dbP, some (Err.notEnoughStock 1)) := by
  refine ⟨by decide, ?_⟩
  have h := net_delta_collapsing dbP
    { id := 1, name := "bolt", nameNormalized := "bolt", sku := none, quantity := 8 }
    (by decide) (by decide) rfl
  simpa [reqDouble] using h

/-- C4 (failing-input evaluation): creating a product with initial quantity 5
and a supplierId that resolves to no supplier succeeds, but the swallowed
failure of the initial movement creation leaves the product with quantity 5
and no line item, so the quantity differs from the signed sum of its live
line items. -/
theorem conservation_fails_on_swallowed_initial_txn :
    (createProduct dbEmpty reqInit).2 = none ∧
    ∃ p ∈ (createProduct dbEmpty reqInit).1.products,
      p.quantity ≠ liveSum (createProduct dbEmpty reqInit).1 p.id := by
  decide

/-- C5: Editing a line item re-validates only the incremental difference
between the new and the old signed delta against the product quantity read
at edit time, and on success applies exactly that difference as an increment
together with the item update, in one unit of work: the success condition and
the result depend only on the current quantity plus the difference. -/
theorem edit_item_incremental (db : DB) (tid itemId : Nat) (rawDelta : Int)
    (item : TxnItem) (t : Txn) (p : Product)
    (hfind : db.items.find? (fun it => it.id == itemId) = some item)
    (hbelong : item.transactionId = tid)
    (hdelta : 0 < rawDelta)
    (htxn : db.txns.find? (fun x => x.id == item.transactionId) = some t)
    (hprod : itemProduct db item = some p)
    (hfp : findProduct db (p.id : Int) = some p)
    (hlo : 0 ≤ p.quantity + (signedDelta t.mtype rawDelta - item.delta))
    (hhi : p.quantity + (signedDelta t.mtype rawDelta - item.delta) ≤ 65535) :
    editItem db tid itemId rawDelta =
      ({ db with
           products := incQty db.products (p.id : Int) (signedDelta t.mtype rawDelta - item.delta),
           items := setItemDelta db.items itemId (signedDelta t.mtype rawDelta) }, none) := by
  have hne : ¬(item.transactionId ≠ tid) := by simp [hbelong]
  have hd0 : ¬(rawDelta ≤ 0) := not_le.mpr hdelta
  have hlt : ¬(p.quantity + (signedDelta t.mtype rawDelta - item.delta) < 0) := not_lt.mpr hlo
  have hgt : ¬(65535 < p.quantity + (signedDelta t.mtype rawDelta - item.delta)) := not_lt.mpr hhi
  have htx : editItemTx db itemId (signedDelta t.mtype rawDelta) =
      .ok { db with
              products := incQty db.products (p.id : Int)
                (signedDelta t.mtype rawDelta - item.delta),
              items := setItemDelta db.items itemId (signedDelta t.mtype rawDelta) } := by
    unfold editItemTx
    rw [hfind]
    dsimp only
    rw [hprod]
    dsimp only
    unfold incProductChecked
    rw [hfp]
    dsimp only
    rw [if_neg hlt, if_neg hgt]
  unfold editItem
  rw [hfind]
  dsimp only
  rw [if_neg hne, if_neg hd0, htxn]
  dsimp only
  rw [hprod]
  dsimp only
  rw [if_neg hlt, if_neg hgt, htx]
  rfl

/-- Witness for C5: scenario E, editing the out-item delta from 5 to 8
against current quantity 15 succeeds and leaves quantity 12. -/
theorem edit_item_incremental_witness :
    (0 : Int) < 8 ∧
    editItem dbE 1 1 8 =
      ({ dbE with
           products := [{ id := 1, name := "bolt", nameNormalized := "bolt", sku := none,
                          quantity := 12 }],
           items := [{ id := 1, transactionId := 1, productId := some 1, productName := "bolt",
                       delta := -8 }] }, none) := by
  refine ⟨by decide, ?_⟩
  have h := edit_item_incremental dbE 1 1 8
    { id := 1, transactionId := 1, productId := some 1, productName := "bolt", delta := -5 }
    { id := 1, mtype := .tout, supplierId := none, supplierName := none,
      destinationId := none, destinationName := none, workerId := none }
    { id := 1, name := "bolt", nameNormalized := "bolt", sku := none, quantity := 15 }
    (by decide) (by decide) (by decide) (by decide) (by decide) (by decide) (by decide) (by decide)
  rw [h]
  decide

/-- C6 counterexample: deleting the only (hence last) line item of movement 1
succeeds and removes the item, yet the movement header list is unchanged and
still holds the now-empty header — the header is not removed. -/
theorem delete_item_header_counterexample :
    (deleteItem dbE 1 1).2 = none ∧
    (deleteItem dbE 1 1).1.items = [] ∧
    (deleteItem dbE 1 1).1.txns = dbE.txns ∧
    dbE.txns ≠ [] := by
  decide

/-- C6 amended: after deleteMovementItem removes the last remaining line item
of a movement, the now-empty movement header remains in place; only the
deleted line item disappears, and no other movement or line item is
affected. -/
theorem delete_item_keeps_header (db db1 : DB) (tid itemId : Nat) (item : TxnItem)
    (hfind : db.items.find? (fun it => it.id == itemId) = some item)
    (hbelong : item.transactionId = tid)
    (hcomp : deleteCompensation db item = .ok db1) :
    deleteItem db tid itemId = ({ db1 with items := eraseItem db.items itemId }, none) ∧
    db1.txns = db.txns := by
  obtain ⟨htx, hit⟩ := deleteCompensation_ok_frame hcomp
  refine ⟨?_, htx⟩
  unfold deleteItem
  rw [hfind]
  dsimp only
  rw [if_neg (by simp [hbelong])]
  rw [hcomp]
  dsimp only
  rw [hit]

/-- Witness for C6 amended: deleting the single item of the one-movement
store removes the item, compensates the quantity, and keeps the header. -/
theorem delete_item_keeps_header_witness :
    deleteItem dbE 1 1 =
      ({ dbE with
           products := [{ id := 1, name := "bolt", nameNormalized := "bolt", sku := none,
                          quantity := 20 }],
           items := [] }, none) := by
  have h := delete_item_keeps_header dbE { dbE with products := incQty dbE.products 1 5 } 1 1
    { id := 1, transactionId := 1, productId := some 1, productName := "bolt", delta := -5 }
    (by decide) (by decide) rfl
  rw [h.1]
  decide

/-- C10: deleting a line item whose product reference is null (or whose delta
is zero) removes just that item: the product list, hence every quantity, is
returned unchanged, because the compensating increment runs only for a live
product reference with a nonzero delta. -/
theorem delete_item_null_product (db : DB) (tid itemId : Nat) (item : TxnItem)
    (hfind : db.items.find? (fun it => it.id == itemId) = some item)
    (hbelong : item.transactionId = tid)
    (hskip : itemProduct db item = none ∨ item.delta = 0) :
    deleteItem db tid itemId = ({ db with items := eraseItem db.items itemId }, none) := by
  have hcomp : deleteCompensation db item = .ok db := by
    unfold deleteCompensation
    rcases hskip with h1 | h1
    · rw [h1]
    · cases hip : itemProduct db item with
      | none => rfl
      | some p =>
        dsimp only
        rw [if_neg (by simp [h1])]
  unfold deleteItem
  rw [hfind]
  dsimp only
  rw [if_neg (by simp [hbelong])]
  rw [hcomp]

/-- Witness for C10 on the store whose item lost its product reference. -/
theorem delete_item_null_product_witness :
    itemProduct dbNull
      { id := 1, transactionId := 1, productId := none, productName := "gone", delta := -4 } = none ∧
    deleteItem dbNull 1 1 = ({ dbNull with items := [] }, none) := by
  refine ⟨by decide, ?_⟩
  have h := delete_item_null_product dbNull 1 1
    { id := 1, transactionId := 1, productId := none, productName := "gone", delta := -4 }
    (by decide) (by decide) (Or.inl (by decide))
  rw [h]
  decide

/-- C7 counterexample: with the worker and the tool present and 5 of 5
available, a requested quantity of 0 is rejected — but with the
quantity-below-one error, which is none of the three error kinds the claim
enumerates (ToolNotFound, WorkerNotFound, InsufficientToolAvailability). -/
theorem assign_tool_error_kind_counterexample :
    assignTool dbW 1 1 0 = (dbW, some Err.invalidQuantity) ∧
    Err.invalidQuantity ≠ Err.toolNotFound ∧
    Err.invalidQuantity ≠ Err.workerNotFound ∧
    Err.invalidQuantity ≠ Err.insufficientToolAvailability := by
  decide

/-- C7 amended: assignTool succeeds exactly when the worker and the tool
resolve, the quantity is at least 1 and does not exceed the available
quantity; on success it appends exactly one assignment row carrying that
quantity and decrements the availability by the same amount; otherwise it
rejects with WorkerNotFound, ToolNotFound, InvalidQuantity (for a quantity
below 1) or InsufficientToolAvailability, and returns the store unchanged. -/
theorem assign_tool_spec (db : DB) (wid tid : Nat) (q : Int) :
    (findWorker db wid = none → assignTool db wid tid q = (db, some Err.workerNotFound)) ∧
    (∀ w, findWorker db wid = some w → findTool db tid = none →
      assignTool db wid tid q = (db, some Err.toolNotFound)) ∧
    (∀ w t, findWorker db wid = some w → findTool db tid = some t →
      (q < 1 → assignTool db wid tid q = (db, some Err.invalidQuantity)) ∧
      (1 ≤ q → t.availableQuantity < q →
        assignTool db wid tid q = (db, some Err.insufficientToolAvailability)) ∧
      (1 ≤ q → q ≤ t.availableQuantity →
        assignTool db wid tid q =
          ({ db with
              assignments := db.assignments ++
                [{ id := db.nextAssignId, toolId := tid, workerId := wid,
                   quantity := q, returned := false }],
              tools := incToolAvail db.tools tid (-q),
              nextAssignId := db.nextAssignId + 1 }, none))) := by
  refine ⟨fun hw => ?_, fun w hw ht => ?_,
    fun w t hw ht => ⟨fun hq => ?_, fun hq1 hq2 => ?_, fun hq1 hq2 => ?_⟩⟩
  · unfold assignTool
    rw [hw]
  · unfold assignTool
    rw [hw]
    dsimp only
    rw [ht]
  · unfold assignTool
    rw [hw]
    dsimp only
    rw [ht]
    dsimp only
    rw [if_pos hq]
  · unfold assignTool
    rw [hw]
    dsimp only
    rw [ht]
    dsimp only
    rw [if_neg (not_lt.mpr hq1), if_pos hq2]
  · unfold assignTool
    rw [hw]
    dsimp only
    rw [ht]
    dsimp only
    rw [if_neg (not_lt.mpr hq1), if_neg (not_lt.mpr hq2)]

/-- Witness for C7 amended: assigning 3 of the 5 available hammers creates
the row and leaves 2 available. -/
theorem assign_tool_spec_witness :
    assignTool dbW 1 1 3 =
      ({ dbW with
          assignments := [{ id := 1, toolId := 1, workerId := 1, quantity := 3, returned := false }],
          tools := [{ id := 1, name := "hammer", totalQuantity := 5, availableQuantity := 2,
                      deleted := false }],
          nextAssignId := 2 }, none) := by
  have h := ((assign_tool_spec dbW 1 1 3).2.2 { id := 1, name := "alice" }
    { id := 1, name := "hammer", totalQuantity := 5, availableQuantity := 5, deleted := false }
    (by decide) (by decide)).2.2 (by decide) (by decide)
  rw [h]
  decide

/-- C8: returnTool with no quantity resolves to the full outstanding quantity,
marks the assignment returned and restores the availability; a partial return
(at least 1, strictly below the outstanding quantity) decrements the
assignment and increments the availability by the same amount, leaving the
assignment open; a request above the outstanding quantity is rejected with
the return-exceeds-assigned error and the store is returned unchanged. -/
theorem return_tool_spec (db : DB) (wid tid : Nat) (w : Worker) (t : Tool) (a : ToolAssignment)
    (hw : findWorker db wid = some w)
    (ht : findTool db tid = some t)
    (ha : db.assignments.find? (fun x => x.workerId == wid && x.toolId == tid && !x.returned) = some a)
    (hq1 : 1 ≤ a.quantity) :
    (returnTool db wid tid none =
      ({ db with assignments := markReturned db.assignments a.id,
                 tools := incToolAvail db.tools tid a.quantity }, none)) ∧
    (∀ q, 1 ≤ q → q < a.quantity →
      returnTool db wid tid (some q) =
        ({ db with assignments := decAssignQty db.assignments a.id q,
                   tools := incToolAvail db.tools tid q }, none)) ∧
    (∀ q, a.quantity < q →
      returnTool db wid tid (some q) = (db, some Err.returnExceedsAssigned)) := by
  refine ⟨?_, fun q hql hqu => ?_, fun q hqe => ?_⟩
  · unfold returnTool
    rw [hw]
    dsimp only
    rw [ht]
    dsimp only
    rw [ha]
    dsimp only
    have hr : resolveReturnQty none a = a.quantity := rfl
    rw [hr, if_neg (not_lt.mpr hq1), if_neg (lt_irrefl _), if_pos rfl]
  · unfold returnTool
    rw [hw]
    dsimp only
    rw [ht]
    dsimp only
    rw [ha]
    dsimp only
    have hr : resolveReturnQty (some q) a = q := by
      unfold resolveReturnQty
      dsimp only
      rw [if_pos]
      exact fun h0 => by simp [h0] at hql
    rw [hr, if_neg (not_lt.mpr hql), if_neg (not_lt.mpr (le_of_lt hqu)),
      if_neg (ne_of_lt hqu)]
  · unfold returnTool
    rw [hw]
    dsimp only
    rw [ht]
    dsimp only
    rw [ha]
    dsimp only
    have hq0 : (1 : Int) ≤ q := le_trans hq1 (le_of_lt hqe)
    have hr : resolveReturnQty (some q) a = q := by
      unfold resolveReturnQty
      dsimp only
      rw [if_pos]
      exact fun h0 => by simp [h0] at hq0
    rw [hr, if_neg (not_lt.mpr hq0), if_pos hqe]

/-- Witness for C8: with 3 hammers out, a partial return of 1 leaves the
assignment open at 2 and availability 3; a no-quantity return closes it at
availability 5; a request of 4 is rejected. -/
theorem return_tool_spec_witness :
    (returnTool dbW2 1 1 (some 1)).1.assignments =
      [{ id := 1, toolId := 1, workerId := 1, quantity := 2, returned := false }] ∧
    (returnTool dbW2 1 1 (some 1)).1.tools =
      [{ id := 1, name := "hammer", totalQuantity := 5, availableQuantity := 3, deleted := false }] ∧
    (returnTool dbW2 1 1 none).1.assignments =
      [{ id := 1, toolId := 1, workerId := 1, quantity := 3, returned := true }] ∧
    (returnTool dbW2 1 1 none).1.tools =
      [{ id := 1, name := "hammer", totalQuantity := 5, availableQuantity := 5, deleted := false }] ∧
    returnTool dbW2 1 1 (some 4) = (dbW2, some Err.returnExceedsAssigned) := by
  have h := return_tool_spec dbW2 1 1 { id := 1, name := "alice" }
    { id := 1, name := "hammer", totalQuantity := 5, availableQuantity := 2, deleted := false }
    { id := 1, toolId := 1, workerId := 1, quantity := 3, returned := false }
    (by decide) (by decide) (by decide) (by decide)
  refine ⟨?_, ?_, ?_, ?_, h.2.2 4 (by decide)⟩
  · rw [h.2.1 1 (by decide) (by decide)]
    decide
  · rw [h.2.1 1 (by decide) (by decide)]
    decide
  · rw [h.1]
    decide
  · rw [h.1]
    decide

/-- C9 counterexample: for the tool with 5 of 5 available the issued amount
is 0, and a requested new total of 0 is not below the issued amount, yet the
edit is rejected (with the total-below-one error) and the total is not set. -/
theorem update_tool_total_counterexample :
    updateTool dbW 1 "hammer" (some 0) = (dbW, some Err.invalidTotal) ∧
    ¬((0 : Int) < 5 - 5) := by
  decide

/-- C9 amended: with a non-empty name and a resolving tool, a new total below
1 is rejected with the total-below-one error; otherwise a new total below the
issued amount (total minus available) is rejected with
CannotReduceBelowIssued; otherwise the total is set and the availability is
recomputed as the new total minus the issued amount, preserving the issued
count exactly. -/
theorem update_tool_total_spec (db : DB) (id : Nat) (name : String) (newTotal : Int) (t : Tool)
    (hname : ¬ trimStr name = "")
    (hfind : findTool db id = some t) :
    (newTotal < 1 → updateTool db id name (some newTotal) = (db, some Err.invalidTotal)) ∧
    (1 ≤ newTotal → newTotal < t.totalQuantity - t.availableQuantity →
      updateTool db id name (some newTotal) = (db, some Err.cannotReduceBelowIssued)) ∧
    (1 ≤ newTotal → t.totalQuantity - t.availableQuantity ≤ newTotal →
      updateTool db id name (some newTotal) =
        ({ db with tools := setToolTotal db.tools id (trimStr name) newTotal
                     (t.totalQuantity - t.availableQuantity) }, none)) := by
  refine ⟨fun hlt => ?_, fun hge hbelow => ?_, fun hge habove => ?_⟩
  · unfold updateTool
    rw [if_neg hname]
    dsimp only
    rw [if_pos hlt]
  · unfold updateTool
    rw [if_neg hname]
    dsimp only
    rw [if_neg (not_lt.mpr hge), hfind]
    dsimp only
    rw [if_pos hbelow]
  · unfold updateTool
    rw [if_neg hname]
    dsimp only
    rw [if_neg (not_lt.mpr hge), hfind]
    dsimp only
    rw [if_neg (not_lt.mpr habove)]

/-- Witness for C9 amended: raising the total from 5 to 9 with nothing issued
leaves 9 available; lowering it to 2 with 3 issued is rejected. -/
theorem update_tool_total_spec_witness :
    updateTool dbW 1 "hammer" (some 9) =
      ({ dbW with tools := [{ id := 1, name := "hammer", totalQuantity := 9,
                              availableQuantity := 9, deleted := false }] }, none) ∧
    updateTool dbW2 1 "hammer" (some 2) = (dbW2, some Err.cannotReduceBelowIssued) := by
  constructor
  · have h := (update_tool_total_spec dbW 1 "hammer" 9
      { id := 1, name := "hammer", totalQuantity := 5, availableQuantity := 5, deleted := false }
      (by decide) (by decide)).2.2 (by decide) (by decide)
    rw [h]
    decide
  · exact (update_tool_total_spec dbW2 1 "hammer" 2
      { id := 1, name := "hammer", totalQuantity := 5, availableQuantity := 2, deleted := false }
      (by decide) (by decide)).2.1 (by decide) (by decide)

end WKeeper
